import Mathlib

/-!
Verification of the incremental ETL pipeline
(scripts/ingest.py, scripts/data_quality.py, scripts/load_fact.py).

Shallow embedding conventions:
* a pandas row is a `Row` whose fields are `Option`-valued (pandas `NaN`/`NaT`
  is `none`); pandas elementwise comparisons on nulls yield `False`, which is
  modelled by `Option.any`;
* a dataframe is a `Frame`: the list of column names actually present plus the
  list of rows (the schema check in `apply_data_quality_checks` inspects
  `df.columns`, everything else reads fixed fields);
* monetary amounts and timestamps are modelled as `Int` (the code only ever
  compares them, so any linear order represents `pd.to_datetime` values and
  decimals faithfully); `pd.to_datetime` normalisation is the identity on
  already-normalised values;
* `raise ValueError` is `Except.error`.
-/

namespace ETL

/-- A transaction record as a pandas row: every field nullable. -/
structure Row where
  transaction_id : Option String
  customer_id : Option String
  product_id : Option String
  amount : Option Int
  transaction_date : Option String
  status : Option String
  updated_at : Option Int
deriving Repr, DecidableEq

/-- A pandas dataframe: the columns present, and the rows. -/
structure Frame where
  cols : List String
  rows : List Row
deriving Repr, DecidableEq

/-- A quarantine entry `(transaction_id, error_message)`; the
`error_timestamp` column added at data_quality.py:138 carries no information
relevant to any claim. -/
abbrev ErrEntry := Option String × String

/-- data_quality.py:21, `EXPECTED_COLUMNS`. -/
def EXPECTED_COLUMNS : List String :=
  ["transaction_id", "customer_id", "product_id", "amount",
   "transaction_date", "status", "updated_at"]

/-- data_quality.py:31, `NOT_NULL_COLUMNS` (note: neither `status` nor
`updated_at` is in this list). -/
def NOT_NULL_COLUMNS : List String :=
  ["transaction_id", "customer_id", "product_id", "amount", "transaction_date"]

/-- data_quality.py:40, `VALID_STATUS`. -/
def VALID_STATUS : List String :=
  ["completed", "pending", "cancelled", "success"]

/-- Python `str.lower()`: lower-case every character of the string. -/
def lowerString (s : String) : String :=
  ⟨s.data.map Char.toLower⟩

/-- `valid_df["status"].str.lower()` applied to one row
(data_quality.py:102); `.str.lower()` maps NaN to NaN. -/
def lowerStatusRow (r : Row) : Row :=
  { r with status := r.status.map lowerString }

/-- data_quality.py:102: the status-normalisation pass over the frame. -/
def lowerStage (rows : List Row) : List Row :=
  rows.map lowerStatusRow

/-- Number of rows in `rows` carrying this `transaction_id` (pandas
`duplicated` treats two NaN keys as duplicates of each other, hence equality
on `Option String`). -/
def countTid (rows : List Row) (t : Option String) : Nat :=
  (rows.filter (fun r => r.transaction_id = t)).length

/-- data_quality.py:105-107: `duplicated("transaction_id", keep=False)`
marks every occurrence of a repeated id, and each marked row contributes one
error tuple. -/
def dupErrors (rows : List Row) : List ErrEntry :=
  (rows.filter (fun r => 2 ≤ countTid rows r.transaction_id)).map
    (fun r => (r.transaction_id, "Duplicate transaction_id"))

/-- `drop_duplicates(..., keep="first")`: keep a row iff its key was not seen
earlier.  `seen` accumulates the keys already kept. -/
def dedupAux (seen : List (Option String)) : List Row → List Row
  | [] => []
  | r :: rs =>
    if r.transaction_id ∈ seen then dedupAux seen rs
    else r :: dedupAux (r.transaction_id :: seen) rs

/-- `valid_df.drop_duplicates("transaction_id", keep="first")`
(data_quality.py:108, also ingest.py:99/111). -/
def dedupByTid (rows : List Row) : List Row :=
  dedupAux [] rows

/-- data_quality.py:105-108: the duplicate pass, producing the surviving
candidates and the appended error tuples. -/
def dupStage (rows : List Row) : List Row × List ErrEntry :=
  (dedupByTid rows, dupErrors rows)

/-- `valid_df[col].isnull()` for the five columns of `NOT_NULL_COLUMNS`. -/
def isNullIn (r : Row) (c : String) : Bool :=
  if c = "transaction_id" then r.transaction_id.isNone
  else if c = "customer_id" then r.customer_id.isNone
  else if c = "product_id" then r.product_id.isNone
  else if c = "amount" then r.amount.isNone
  else if c = "transaction_date" then r.transaction_date.isNone
  else false

/-- One iteration of the loop at data_quality.py:111-115: report every
currently-candidate row that is null in `c`, then keep only non-null rows. -/
def notNullPass (s : List Row × List ErrEntry) (c : String) :
    List Row × List ErrEntry :=
  (s.1.filter (fun r => ¬ isNullIn r c),
   s.2 ++ (s.1.filter (fun r => isNullIn r c)).map
     (fun r => (r.transaction_id, "NULL value in " ++ c)))

/-- data_quality.py:110-115: the NOT NULL checks, one pass per column of
`NOT_NULL_COLUMNS`, in list order. -/
def nullStage (s : List Row × List ErrEntry) : List Row × List ErrEntry :=
  NOT_NULL_COLUMNS.foldl notNullPass s

/-- data_quality.py:117-121: `amount <= 0` rows are reported and removed,
`amount > 0` rows kept (a pandas comparison with NaN is `False` on both
sides, hence `Option.any`). -/
def amountStage (s : List Row × List ErrEntry) : List Row × List ErrEntry :=
  (s.1.filter (fun r => r.amount.any (fun a => 0 < a)),
   s.2 ++ (s.1.filter (fun r => r.amount.any (fun a => a ≤ 0))).map
     (fun r => (r.transaction_id, "Amount must be > 0")))

/-- `valid_df["status"].isin(VALID_STATUS)` on one row (`isin` is `False` on
NaN). -/
def statusOk (r : Row) : Bool :=
  match r.status with
  | some s => VALID_STATUS.contains s
  | none => false

/-- data_quality.py:123-127: the status-domain check. -/
def statusStage (s : List Row × List ErrEntry) : List Row × List ErrEntry :=
  (s.1.filter statusOk,
   s.2 ++ (s.1.filter (fun r => ¬ statusOk r)).map
     (fun r => (r.transaction_id, "Invalid status value")))

/-- `valid_df["product_id"].isin(products_set)` on one row. -/
def productOk (products_set : List String) (r : Row) : Bool :=
  match r.product_id with
  | some p => products_set.contains p
  | none => false

/-- data_quality.py:129-134: the referential-integrity check, skipped when
`products_set` is empty (Python truthiness of the set). -/
def productStage (products_set : List String)
    (s : List Row × List ErrEntry) : List Row × List ErrEntry :=
  if products_set.isEmpty then s
  else
    (s.1.filter (productOk products_set),
     s.2 ++ (s.1.filter (fun r => ¬ productOk products_set r)).map
       (fun r => (r.transaction_id, "Invalid product_id")))

/-- data_quality.py:92-140, `apply_data_quality_checks`: schema check (raise
on the first missing expected column, data_quality.py:96-99), then status
normalisation, then the five removal passes in order; returns
`(valid_df, error_df)`. -/
def apply_data_quality_checks (df : Frame) (products_set : List String) :
    Except String (List Row × List ErrEntry) :=
  match EXPECTED_COLUMNS.find? (fun c => ¬ df.cols.contains c) with
  | some c => Except.error ("Missing required column: " ++ c)
  | none =>
    Except.ok (productStage products_set
      (statusStage (amountStage (nullStage (dupStage (lowerStage df.rows))))))

/-! ### Object-level view of `apply_data_quality_checks` (for the frame claim)

The function's only in-place mutation is the column assignment
`valid_df["status"] = valid_df["status"].str.lower()` (data_quality.py:102);
every later update rebinds `valid_df` to a fresh object.  We model the
Python heap as a list of `Frame` objects indexed by position: the caller's
argument lives at reference 0, and `valid_df = df.copy()`
(data_quality.py:93) allocates an equal but distinct object at reference 1.
The status assignment then mutates whichever reference `valid_df` holds. -/

/-- `df["status"] = df["status"].str.lower()` as a whole-frame update. -/
def lowerStatusFrame (df : Frame) : Frame :=
  { df with rows := lowerStage df.rows }

/-- The heap (list of live `Frame` objects) at the end of
`apply_data_quality_checks`, starting from the caller's `df` at reference 0:
`df.copy()` allocates reference 1, and — unless the schema check raised
first — the status assignment mutates reference 1 in place.  `products_set`
is threaded because the source function receives it; it influences no heap
operation. -/
def applyDQHeap (df : Frame) (products_set : List String) : List Frame :=
  let h0 : List Frame := [df]
  let h1 : List Frame := h0 ++ [h0.getD 0 ⟨[], []⟩]
  match EXPECTED_COLUMNS.find? (fun c => ¬ (h1.getD 1 ⟨[], []⟩).cols.contains c) with
  | some _ => h1
  | none => h1.set 1 (lowerStatusFrame (h1.getD 1 ⟨[], []⟩))

/-- The caller's dataframe object (reference 0) after
`apply_data_quality_checks` returns or raises. -/
def callerDfAfter (df : Frame) (products_set : List String) : Frame :=
  (applyDQHeap df products_set).getD 0 ⟨[], []⟩

/-! ### ingest.py -/

/-- ingest.py:91-111, `filter_incremental`.  An empty frame is returned
unchanged; with no watermark the batch is deduplicated by `transaction_id`
(full load); otherwise rows with `updated_at` strictly greater than the
watermark are kept (a comparison with NaT is `False`) and then deduplicated.
The `pd.to_datetime` normalisations (ingest.py:95,101) are the identity on
the already-normalised timestamps of the model. -/
def filter_incremental (rows : List Row) (max_updated_at : Option Int) :
    List Row :=
  if rows.isEmpty then rows
  else
    match max_updated_at with
    | none => dedupByTid rows
    | some m => dedupByTid (rows.filter (fun r => r.updated_at.any (fun u => m < u)))

/-- Lexicographic order on character lists, as Python compares strings. -/
def charsLe : List Char → List Char → Bool
  | [], _ => true
  | _ :: _, [] => false
  | a :: as, b :: bs =>
    if a < b then true else if b < a then false else charsLe as bs

/-- Python string `<=` (lexicographic by code point), used by `sorted`. -/
def strLe (a b : String) : Bool := charsLe a.data b.data

/-- `sorted` insertion step for batch file names. -/
def insertByName (p : String × List Row) :
    List (String × List Row) → List (String × List Row)
  | [] => [p]
  | q :: qs => if strLe p.1 q.1 then p :: q :: qs else q :: insertByName p qs

/-- ingest.py:71-75: `sorted(...)` over the CSV file names. -/
def sortByName : List (String × List Row) → List (String × List Row)
  | [] => []
  | p :: ps => insertByName p (sortByName ps)

/-- ingest.py:70-87, `load_csv_files`: read every `.csv` batch (modelled as
a name/rows pair, with `parse_dates` the identity on the model's
timestamps), sort the names, and concatenate the frames in that order; an
empty directory yields an empty frame.  No deduplication happens here. -/
def load_csv_files (files : List (String × List Row)) : List Row :=
  ((sortByName files).map Prod.snd).flatten

/-! ### load_fact.py -/

/-- The composite conflict target `(transaction_id, transaction_date)` of
load_fact.py:79. -/
def rkey (r : Row) : Option String × Option String :=
  (r.transaction_id, r.transaction_date)

/-- `ON CONFLICT ... DO UPDATE SET` (load_fact.py:80-85): keep the key
columns of the stored row, overwrite the five non-key columns with the
incoming (`EXCLUDED`) values. -/
def updRow (old r : Row) : Row :=
  { transaction_id := old.transaction_id
    transaction_date := old.transaction_date
    customer_id := r.customer_id
    product_id := r.product_id
    amount := r.amount
    status := r.status
    updated_at := r.updated_at }

/-- One row of the `INSERT ... ON CONFLICT DO UPDATE` of load_fact.py:68-86:
insert if the composite key is absent, otherwise update the conflicting
row in place. -/
def upsertOne (store : List Row) (r : Row) : List Row :=
  if store.any (fun old => rkey old = rkey r) then
    store.map (fun old => if rkey old = rkey r then updRow old r else old)
  else store ++ [r]

/-- load_fact.py:51-97, `upsert_fact_table`: no-op on an empty frame,
otherwise apply the upsert row by row (`execute_values` pages the rows but
applies them in order) and return the number of records merged, paired here
with the resulting fact-store state.  Postgres rejects two rows with the
same conflict key inside one statement, so this sequential model is faithful
on inputs whose composite keys are distinct — which the quality gate
guarantees for accepted record sets. -/
def upsert_fact_table (df : List Row) (store : List Row) : Nat × List Row :=
  if df.isEmpty then (0, store)
  else (df.length, df.foldl upsertOne store)

/-- Distinctness of the composite fact-store key, as enforced by the unique
index required by the `ON CONFLICT` target. -/
def distinctKeys (rows : List Row) : Prop :=
  rows.Pairwise (fun a b => rkey a ≠ rkey b)

/-- Distinctness of `transaction_id` within a batch. -/
def distinctTids (rows : List Row) : Prop :=
  rows.Pairwise (fun a b => a.transaction_id ≠ b.transaction_id)

/-! ### Concrete sample records used to evaluate the model -/

/-- A fully valid record with `transaction_id = "dup"`. -/
def dupRowA : Row :=
  ⟨some "dup", some "c1", some "p1", some 5, some "2026-01-01",
   some "pending", some 10⟩

/-- A second fully valid record with the same `transaction_id = "dup"`. -/
def dupRowB : Row :=
  ⟨some "dup", some "c2", some "p1", some 7, some "2026-01-02",
   some "completed", some 11⟩

/-- Two otherwise-valid records sharing one `transaction_id`. -/
def dupFrame : Frame := ⟨EXPECTED_COLUMNS, [dupRowA, dupRowB]⟩

/-- Like `dupRowA` but with `transaction_id = "t9"`. -/
def dupRowC : Row :=
  ⟨some "t9", some "c1", some "p1", some 5, some "2026-01-01",
   some "pending", some 10⟩

/-- Like `dupRowB` but with `transaction_id = "t9"`. -/
def dupRowD : Row :=
  ⟨some "t9", some "c2", some "p1", some 7, some "2026-01-02",
   some "completed", some 11⟩

/-- A second two-record frame sharing one `transaction_id`. -/
def dupFrame2 : Frame := ⟨EXPECTED_COLUMNS, [dupRowC, dupRowD]⟩

/-- A record with `transaction_id = "d3"` and a negative amount. -/
def negRow : Row :=
  ⟨some "d3", some "c1", some "p1", some (-5), some "2026-01-01",
   some "pending", some 10⟩

/-- A fully valid record with the same `transaction_id = "d3"`. -/
def posRow : Row :=
  ⟨some "d3", some "c2", some "p1", some 7, some "2026-01-02",
   some "completed", some 11⟩

/-- A duplicated id whose surviving first copy also violates the amount
rule. -/
def dupFrame3 : Frame := ⟨EXPECTED_COLUMNS, [negRow, posRow]⟩

/-- A record that is valid except that `updated_at` is null. -/
def nullUpdRow : Row :=
  ⟨some "t1", some "c1", some "p1", some 5, some "2026-01-01",
   some "pending", none⟩

/-- A single-record frame whose record has a null `updated_at`. -/
def nullUpdFrame : Frame := ⟨EXPECTED_COLUMNS, [nullUpdRow]⟩

/-- A record that is valid except that `customer_id` is null. -/
def nullCustRow : Row :=
  ⟨some "t2", none, some "p1", some 5, some "2026-01-01",
   some "pending", some 10⟩

/-- A single-record frame whose record has a null `customer_id`. -/
def nullCustFrame : Frame := ⟨EXPECTED_COLUMNS, [nullCustRow]⟩

/-- A record at the watermark (`updated_at = 10`). -/
def wRowOld : Row :=
  ⟨some "w1", some "c1", some "p1", some 5, some "2026-01-01",
   some "pending", some 10⟩

/-- A record past the watermark (`updated_at = 20`). -/
def wRowNew : Row :=
  ⟨some "w2", some "c2", some "p1", some 7, some "2026-01-02",
   some "completed", some 20⟩

/-- Two rows of distinct ids around the watermark value 10. -/
def wRows : List Row := [wRowOld, wRowNew]

/-- The single record of batch `"b.csv"`, with `transaction_id = "x"`. -/
def c7rowB : Row :=
  ⟨some "x", some "c1", some "p1", some 1, some "2026-01-01",
   some "pending", some 10⟩

/-- The single record of batch `"a.csv"`, also with `transaction_id =
"x"`. -/
def c7rowA : Row :=
  ⟨some "x", some "c2", some "p1", some 2, some "2026-01-02",
   some "completed", some 20⟩

/-- A one-record batch per CSV file; both records share `transaction_id =
"x"` but differ otherwise, and the file names sort `"a.csv"` before
`"b.csv"`. -/
def c7files : List (String × List Row) :=
  [("b.csv", [c7rowB]), ("a.csv", [c7rowA])]

/-- An accepted record for exercising the fact-store upsert. -/
def factRow : Row :=
  ⟨some "f1", some "c1", some "p1", some 5, some "2026-01-01",
   some "success", some 10⟩

end ETL

namespace ETL

/-! ### Theorems -/

/-! Helper lemmas about `drop_duplicates` (`dedupAux`). -/

theorem mem_of_mem_dedupAux {seen : List (Option String)} {l : List Row}
    {x : Row} (h : x ∈ dedupAux seen l) : x ∈ l := by
  induction l generalizing seen with
  | nil => simp [dedupAux] at h
  | cons r rs ih =>
    by_cases hr : r.transaction_id ∈ seen
    · simp only [dedupAux, if_pos hr] at h
      exact List.mem_cons_of_mem _ (ih h)
    · simp only [dedupAux, if_neg hr, List.mem_cons] at h
      rcases h with h | h
      · exact h ▸ List.mem_cons_self _ _
      · exact List.mem_cons_of_mem _ (ih h)

theorem tid_notin_seen_of_mem_dedupAux {seen : List (Option String)}
    {l : List Row} {x : Row} (h : x ∈ dedupAux seen l) :
    x.transaction_id ∉ seen := by
  induction l generalizing seen with
  | nil => simp [dedupAux] at h
  | cons r rs ih =>
    by_cases hr : r.transaction_id ∈ seen
    · simp only [dedupAux, if_pos hr] at h
      exact ih h
    · simp only [dedupAux, if_neg hr, List.mem_cons] at h
      rcases h with rfl | h
      · exact hr
      · intro hx
        exact ih h (List.mem_cons_of_mem _ hx)

theorem pairwise_dedupAux (seen : List (Option String)) (l : List Row) :
    (dedupAux seen l).Pairwise
      (fun a b => a.transaction_id ≠ b.transaction_id) := by
  induction l generalizing seen with
  | nil => simp [dedupAux]
  | cons r rs ih =>
    by_cases hr : r.transaction_id ∈ seen
    · simpa only [dedupAux, if_pos hr] using ih seen
    · simp only [dedupAux, if_neg hr]
      refine List.Pairwise.cons ?_ (ih _)
      intro b hb hEq
      exact tid_notin_seen_of_mem_dedupAux hb
        (by rw [← hEq]; exact List.mem_cons_self _ _)

theorem dedupAux_eq_self (seen : List (Option String)) (l : List Row)
    (hseen : ∀ r ∈ l, r.transaction_id ∉ seen)
    (hdist : l.Pairwise (fun a b => a.transaction_id ≠ b.transaction_id)) :
    dedupAux seen l = l := by
  induction l generalizing seen with
  | nil => simp [dedupAux]
  | cons r rs ih =>
    have hr : r.transaction_id ∉ seen := hseen r (List.mem_cons_self _ _)
    simp only [dedupAux, if_neg hr, List.cons.injEq, true_and]
    refine ih _ ?_ hdist.of_cons
    intro x hx
    simp only [List.mem_cons]
    rintro (hx1 | hx2)
    · exact (List.rel_of_pairwise_cons hdist hx) hx1.symm
    · exact hseen x (List.mem_cons_of_mem _ hx) hx2

/-- C5: with a non-null watermark, every record returned by
`filter_incremental` has `updated_at` strictly greater than the watermark
(ingest.py:103 keeps only `updated_at > max_updated_at`, and deduplication
only removes rows); equivalently, no record with `updated_at` less than or
equal to the watermark — ties included — appears in the output. -/
theorem filter_incremental_strictly_after_watermark
    (rows : List Row) (wm : Int) (r : Row)
    (h : r ∈ filter_incremental rows (some wm)) :
    ∃ u, r.updated_at = some u ∧ wm < u := by
  unfold filter_incremental at h
  by_cases he : rows.isEmpty
  · rw [if_pos he] at h
    rw [List.isEmpty_iff.mp he] at h
    simp at h
  · rw [if_neg he] at h
    have h2 : r ∈ rows.filter (fun r => r.updated_at.any (fun u => wm < u)) :=
      mem_of_mem_dedupAux h
    have hp := (List.mem_filter.mp h2).2
    rcases hu : r.updated_at with _ | u
    · rw [hu] at hp
      simp [Option.any] at hp
    · rw [hu] at hp
      simp only [Option.any, decide_eq_true_eq] at hp
      exact ⟨u, rfl, hp⟩

/-- C5 witness: with watermark 10, the record with `updated_at = 20` is in
the output and indeed lies strictly past the watermark. -/
theorem filter_incremental_strictly_after_watermark_witness :
    ∃ u, wRowNew.updated_at = some u ∧ 10 < u :=
  filter_incremental_strictly_after_watermark wRows 10 wRowNew (by decide)

/-- C6: with no watermark (first run), `filter_incremental` returns the
batch deduplicated by `transaction_id` and nothing is filtered by
timestamp (ingest.py:97-99); in particular a batch whose ids are pairwise
distinct is returned in full. -/
theorem filter_incremental_full_load (rows : List Row) :
    filter_incremental rows none = dedupByTid rows ∧
    (distinctTids rows → filter_incremental rows none = rows) := by
  constructor
  · unfold filter_incremental
    by_cases he : rows.isEmpty
    · rw [if_pos he, List.isEmpty_iff.mp he]
      rfl
    · rw [if_neg he]
  · intro hd
    unfold filter_incremental
    by_cases he : rows.isEmpty
    · rw [if_pos he]
    · rw [if_neg he]
      exact dedupAux_eq_self [] rows (by simp) hd

/-- C6 witness: on two records with distinct ids and no watermark, the full
batch comes back. -/
theorem filter_incremental_full_load_witness :
    filter_incremental wRows none = dedupByTid wRows ∧
    filter_incremental wRows none = wRows :=
  ⟨(filter_incremental_full_load wRows).1,
   (filter_incremental_full_load wRows).2 (by unfold distinctTids wRows; decide)⟩

/-- C7 counterexample: the claim says the Batch Collector's combined output
contains no two records sharing a `transaction_id`, but `load_csv_files`
(ingest.py:70-87) only sorts the file names and concatenates — it performs
no deduplication.  Two one-record batches sharing id `"x"` yield an output
with both records (in sorted file order `"a.csv"`, `"b.csv"`). -/
theorem load_csv_files_keeps_duplicate_tid :
    load_csv_files c7files = [c7rowA, c7rowB] ∧
    c7rowA.transaction_id = c7rowB.transaction_id ∧
    ¬ distinctTids (load_csv_files c7files) := by
  refine ⟨rfl, rfl, ?_⟩
  intro h
  have h1 : load_csv_files c7files = [c7rowA, c7rowB] := rfl
  rw [h1] at h
  exact (List.pairwise_cons.mp h).1 c7rowB (List.mem_cons_self _ _) rfl

/-- C7 amended: the Collector concatenates the batches in sorted file-name
order without deduplicating; deduplication by `transaction_id` (first
occurrence kept) is performed downstream by the Watermark Filter, whose
output therefore contains no two records sharing a `transaction_id`. -/
theorem filter_output_distinct_tids
    (files : List (String × List Row)) (wm : Option Int) :
    distinctTids (filter_incremental (load_csv_files files) wm) := by
  unfold filter_incremental
  by_cases he : (load_csv_files files).isEmpty
  · rw [if_pos he, List.isEmpty_iff.mp he]
    exact List.Pairwise.nil
  · rw [if_neg he]
    cases wm with
    | none => exact pairwise_dedupAux [] _
    | some m => exact pairwise_dedupAux [] _

/-! Helper lemmas about the NOT NULL passes. -/

theorem mem_fst_foldl_notNullPass {cols : List String}
    {s : List Row × List ErrEntry} {x : Row}
    (h : x ∈ (cols.foldl notNullPass s).1) : x ∈ s.1 := by
  induction cols generalizing s with
  | nil => exact h
  | cons c cs ih =>
    have h1 : x ∈ (notNullPass s c).1 := ih h
    exact List.mem_of_mem_filter h1

theorem mem_snd_foldl_notNullPass {cols : List String}
    {s : List Row × List ErrEntry} {e : ErrEntry}
    (h : e ∈ s.2) : e ∈ (cols.foldl notNullPass s).2 := by
  induction cols generalizing s with
  | nil => exact h
  | cons c cs ih =>
    exact ih (List.mem_append_left _ h)

theorem foldl_notNullPass_removes_and_reports {cols : List String}
    {s : List Row × List ErrEntry} {r : Row}
    (hr : r ∈ s.1) (hex : ∃ c ∈ cols, isNullIn r c) :
    r ∉ (cols.foldl notNullPass s).1 ∧
    ∃ c', c' ∈ cols ∧ isNullIn r c' ∧
      (r.transaction_id, "NULL value in " ++ c') ∈ (cols.foldl notNullPass s).2 := by
  induction cols generalizing s with
  | nil => rcases hex with ⟨c, hc, _⟩; exact absurd hc (List.not_mem_nil c)
  | cons c cs ih =>
    by_cases hn : isNullIn r c
    · constructor
      · intro hmem
        have h1 : r ∈ (notNullPass s c).1 := mem_fst_foldl_notNullPass hmem
        have h2 := (List.mem_filter.mp h1).2
        simp only [decide_eq_true_eq] at h2
        exact h2 hn
      · refine ⟨c, List.mem_cons_self _ _, hn, ?_⟩
        rw [List.foldl_cons]
        apply mem_snd_foldl_notNullPass
        apply List.mem_append_right
        apply List.mem_map_of_mem
        exact List.mem_filter.mpr ⟨hr, hn⟩
    · have hr' : r ∈ (notNullPass s c).1 := by
        refine List.mem_filter.mpr ⟨hr, ?_⟩
        simp only [decide_eq_true_eq]
        exact hn
      have hex' : ∃ c' ∈ cs, isNullIn r c' := by
        rcases hex with ⟨c', hc', hnc'⟩
        rcases List.mem_cons.mp hc' with rfl | hmem
        · exact absurd hnc' hn
        · exact ⟨c', hmem, hnc'⟩
      rcases ih hr' hex' with ⟨hout, c', hc', hnc', hent⟩
      exact ⟨hout, c', List.mem_cons_of_mem _ hc', hnc', hent⟩

/-! Helper lemmas about the later removal passes. -/

theorem amountStage_fst_subset (s : List Row × List ErrEntry) :
    (amountStage s).1 ⊆ s.1 :=
  fun _ hx => List.mem_of_mem_filter hx

theorem statusStage_fst_subset (s : List Row × List ErrEntry) :
    (statusStage s).1 ⊆ s.1 :=
  fun _ hx => List.mem_of_mem_filter hx

theorem productStage_fst_subset (ps : List String)
    (s : List Row × List ErrEntry) : (productStage ps s).1 ⊆ s.1 := by
  unfold productStage
  split
  · exact fun _ h => h
  · exact fun _ hx => List.mem_of_mem_filter hx

theorem amountStage_snd_mem {s : List Row × List ErrEntry} {e : ErrEntry}
    (h : e ∈ s.2) : e ∈ (amountStage s).2 :=
  List.mem_append_left _ h

theorem statusStage_snd_mem {s : List Row × List ErrEntry} {e : ErrEntry}
    (h : e ∈ s.2) : e ∈ (statusStage s).2 :=
  List.mem_append_left _ h

theorem productStage_snd_mem (ps : List String)
    {s : List Row × List ErrEntry} {e : ErrEntry}
    (h : e ∈ s.2) : e ∈ (productStage ps s).2 := by
  unfold productStage
  split
  · exact h
  · exact List.mem_append_left _ h

/-- C4 amended: the code null-checks only the five columns of
`NOT_NULL_COLUMNS` (`status` and `updated_at` are not null-checked, see the
counterexample), and the reason string is `"NULL value in <col>"`: every
record that reaches the nullness rule (i.e. survives the duplicate pass)
with a null in one of those five columns is excluded from the accepted
output and receives a `"NULL value in <col>"` rejection entry naming a null
column. -/
theorem nullness_rule_five_columns (df : Frame) (ps : List String)
    (acc : List Row) (errs : List ErrEntry)
    (hok : apply_data_quality_checks df ps = Except.ok (acc, errs))
    (r : Row) (hr : r ∈ (dupStage (lowerStage df.rows)).1)
    (c : String) (hc : c ∈ NOT_NULL_COLUMNS) (hnull : isNullIn r c) :
    r ∉ acc ∧ ∃ c', c' ∈ NOT_NULL_COLUMNS ∧ isNullIn r c' ∧
      (r.transaction_id, "NULL value in " ++ c') ∈ errs := by
  unfold apply_data_quality_checks at hok
  rcases hfind : EXPECTED_COLUMNS.find? (fun c => ¬ df.cols.contains c)
      with _ | c0
  · rw [hfind] at hok
    have hpair := Except.ok.inj hok
    have hacc : acc =
        (productStage ps (statusStage (amountStage
          (nullStage (dupStage (lowerStage df.rows)))))).1 := by
      rw [hpair]
    have herrs : errs =
        (productStage ps (statusStage (amountStage
          (nullStage (dupStage (lowerStage df.rows)))))).2 := by
      rw [hpair]
    rcases foldl_notNullPass_removes_and_reports hr ⟨c, hc, hnull⟩
      with ⟨hnot, c', hc', hn', hent⟩
    refine ⟨?_, c', hc', hn', ?_⟩
    · intro hmem
      rw [hacc] at hmem
      have h1 := productStage_fst_subset ps _ hmem
      have h2 := statusStage_fst_subset _ h1
      have h3 := amountStage_fst_subset _ h2
      exact hnot h3
    · rw [herrs]
      exact productStage_snd_mem ps
        (statusStage_snd_mem (amountStage_snd_mem hent))
  · rw [hfind] at hok
    exact absurd hok (by simp)

/-- C4 witness: a record whose `customer_id` is null, with all other fields
valid, is excluded from the accepted output and reported with
`"NULL value in customer_id"`. -/
theorem nullness_rule_five_columns_witness :
    nullCustRow ∉ ([] : List Row) ∧
    ∃ c', c' ∈ NOT_NULL_COLUMNS ∧ isNullIn nullCustRow c' ∧
      (nullCustRow.transaction_id, "NULL value in " ++ c') ∈
        [(some "t2", "NULL value in customer_id")] :=
  nullness_rule_five_columns nullCustFrame []
    [] [(some "t2", "NULL value in customer_id")] (by rfl)
    nullCustRow (by decide) "customer_id" (by decide) (by decide)

/-! Helper lemmas about the fact-store upsert. -/

theorem rkey_ite_upd (x r : Row) :
    rkey (if rkey x = rkey r then updRow x r else x) = rkey x := by
  split
  · rfl
  · rfl

theorem updRow_eq_of_rkey_eq {old r : Row} (h : rkey old = rkey r) :
    updRow old r = r := by
  have h1 : old.transaction_id = r.transaction_id := congrArg Prod.fst h
  have h2 : old.transaction_date = r.transaction_date := congrArg Prod.snd h
  cases r
  simp_all [updRow]

theorem distinctKeys_upsertOne {store : List Row} (r : Row)
    (h : distinctKeys store) : distinctKeys (upsertOne store r) := by
  unfold upsertOne
  by_cases hp : store.any (fun old => rkey old = rkey r)
  · rw [if_pos hp]
    exact List.Pairwise.map _
      (fun a b hab => by rw [rkey_ite_upd, rkey_ite_upd]; exact hab) h
  · rw [if_neg hp]
    unfold distinctKeys at h ⊢
    rw [List.pairwise_append]
    refine ⟨h, List.pairwise_singleton _ _, ?_⟩
    intro a ha b hb
    simp only [List.mem_singleton] at hb
    subst hb
    intro hEq
    simp only [List.any_eq_true, decide_eq_true_eq] at hp
    exact hp ⟨a, ha, hEq⟩

theorem distinctKeys_foldl_upsert {df store : List Row}
    (h : distinctKeys store) : distinctKeys (df.foldl upsertOne store) := by
  induction df generalizing store with
  | nil => exact h
  | cons d ds ih => exact ih (distinctKeys_upsertOne d h)

theorem eq_of_mem_of_rkey_eq {S : List Row} {a b : Row}
    (hd : distinctKeys S) (ha : a ∈ S) (hb : b ∈ S)
    (hk : rkey a = rkey b) : a = b := by
  induction S with
  | nil => exact absurd ha (List.not_mem_nil a)
  | cons s ss ih =>
    rcases List.pairwise_cons.mp hd with ⟨hhead, htail⟩
    rcases List.mem_cons.mp ha with rfl | ha2
    · rcases List.mem_cons.mp hb with rfl | hb2
      · rfl
      · exact absurd hk (hhead b hb2)
    · rcases List.mem_cons.mp hb with rfl | hb2
      · exact absurd hk.symm (hhead a ha2)
      · exact ih htail ha2 hb2

theorem self_mem_upsertOne (store : List Row) (r : Row) :
    r ∈ upsertOne store r := by
  unfold upsertOne
  by_cases hp : store.any (fun old => rkey old = rkey r)
  · rw [if_pos hp]
    simp only [List.any_eq_true, decide_eq_true_eq] at hp
    rcases hp with ⟨old, hold, hk⟩
    refine List.mem_map.mpr ⟨old, hold, ?_⟩
    rw [if_pos hk]
    exact updRow_eq_of_rkey_eq hk
  · rw [if_neg hp]
    exact List.mem_append_right _ (List.mem_singleton.mpr rfl)

theorem mem_upsertOne_of_ne {store : List Row} {x : Row} (r : Row)
    (hx : x ∈ store) (hne : rkey x ≠ rkey r) : x ∈ upsertOne store r := by
  unfold upsertOne
  by_cases hp : store.any (fun old => rkey old = rkey r)
  · rw [if_pos hp]
    refine List.mem_map.mpr ⟨x, hx, ?_⟩
    exact if_neg hne
  · rw [if_neg hp]
    exact List.mem_append_left _ hx

theorem mem_foldl_upsert_of_ne {ds : List Row} {S : List Row} {x : Row}
    (hx : x ∈ S) (hne : ∀ s ∈ ds, rkey x ≠ rkey s) :
    x ∈ ds.foldl upsertOne S := by
  induction ds generalizing S with
  | nil => exact hx
  | cons d dd ih =>
    exact ih (mem_upsertOne_of_ne d hx (hne d (List.mem_cons_self _ _)))
      (fun s hs => hne s (List.mem_cons_of_mem _ hs))

theorem mem_foldl_upsert {df : List Row} {store : List Row} {r : Row}
    (hdf : distinctKeys df) (hr : r ∈ df) :
    r ∈ df.foldl upsertOne store := by
  induction df generalizing store with
  | nil => exact absurd hr (List.not_mem_nil r)
  | cons d ds ih =>
    rcases List.pairwise_cons.mp hdf with ⟨hhead, htail⟩
    rcases List.mem_cons.mp hr with rfl | hr2
    · rw [List.foldl_cons]
      exact mem_foldl_upsert_of_ne (self_mem_upsertOne store r) hhead
    · rw [List.foldl_cons]
      exact ih htail hr2

theorem map_id_of_mem {S : List Row} {f : Row → Row}
    (h : ∀ x ∈ S, f x = x) : S.map f = S := by
  induction S with
  | nil => rfl
  | cons s ss ih =>
    simp only [List.map_cons, List.cons.injEq]
    exact ⟨h s (List.mem_cons_self _ _),
      ih (fun x hx => h x (List.mem_cons_of_mem _ hx))⟩

theorem upsertOne_eq_self {S : List Row} {r : Row}
    (hd : distinctKeys S) (hr : r ∈ S) : upsertOne S r = S := by
  unfold upsertOne
  have hp : S.any (fun old => rkey old = rkey r) := by
    simp only [List.any_eq_true, decide_eq_true_eq]
    exact ⟨r, hr, rfl⟩
  rw [if_pos hp]
  apply map_id_of_mem
  intro x hx
  by_cases hc : rkey x = rkey r
  · rw [if_pos hc]
    have hxr : x = r := eq_of_mem_of_rkey_eq hd hx hr hc
    subst hxr
    exact updRow_eq_of_rkey_eq hc
  · exact if_neg hc

theorem foldl_upsert_eq_self {df : List Row} {T : List Row}
    (hT : distinctKeys T) (hmem : ∀ r ∈ df, r ∈ T) :
    df.foldl upsertOne T = T := by
  induction df with
  | nil => rfl
  | cons d ds ih =>
    have h1 : upsertOne T d = T := upsertOne_eq_self hT (hmem d (List.mem_cons_self _ _))
    rw [List.foldl_cons, h1]
    exact ih (fun r hr => hmem r (List.mem_cons_of_mem _ hr))

theorem snd_upsert_fact_table (df store : List Row) :
    (upsert_fact_table df store).2 = df.foldl upsertOne store := by
  unfold upsert_fact_table
  by_cases h : df.isEmpty
  · rw [if_pos h, List.isEmpty_iff.mp h]
    rfl
  · rw [if_neg h]

/-- C9: for a record set with pairwise-distinct composite keys — as any
accepted record set has, since the quality gate deduplicates by
`transaction_id` — and a fact store whose composite key
`(transaction_id, transaction_date)` is unique (as the `ON CONFLICT`
target's unique index enforces), applying `upsert_fact_table` twice with
the same record set yields the same store state as applying it once, and
the resulting store again holds at most one row per composite key. -/
theorem upsert_fact_table_idempotent (df store : List Row)
    (hdf : distinctKeys df) (hstore : distinctKeys store) :
    (upsert_fact_table df (upsert_fact_table df store).2).2 =
      (upsert_fact_table df store).2 ∧
    distinctKeys (upsert_fact_table df store).2 := by
  rw [snd_upsert_fact_table, snd_upsert_fact_table]
  constructor
  · exact foldl_upsert_eq_self (distinctKeys_foldl_upsert hstore)
      (fun r hr => mem_foldl_upsert hdf hr)
  · exact distinctKeys_foldl_upsert hstore

/-- C9 witness: upserting one accepted record into an empty fact store
twice leaves the one-row store of the first application. -/
theorem upsert_fact_table_idempotent_witness :
    (upsert_fact_table [factRow] (upsert_fact_table [factRow] []).2).2 =
      (upsert_fact_table [factRow] []).2 ∧
    distinctKeys (upsert_fact_table [factRow] []).2 :=
  upsert_fact_table_idempotent [factRow] []
    (by unfold distinctKeys; decide) (by unfold distinctKeys; decide)

/-- C1: the claim says that when a `transaction_id` occurs more than once,
all its occurrences are rejected with the duplicate reason and the accepted
output contains no record with that id.  The code (data_quality.py:105-108)
does emit one `"Duplicate transaction_id"` quarantine entry per occurrence
(`duplicated(..., keep=False)`), but then runs
`drop_duplicates("transaction_id", keep="first")`, which keeps the
first-seen copy as a candidate: on two otherwise-valid records sharing id
`"dup"`, the first copy ends up in the accepted output even though both
copies were quarantined.  The same record is simultaneously accepted and
quarantined, so the claim (and the spec's Scenario 4) is right and the code
is wrong. -/
theorem dup_first_copy_kept_in_accepted :
    countTid dupFrame.rows (some "dup") = 2 ∧
    apply_data_quality_checks dupFrame [] =
      Except.ok ([dupRowA],
        [(some "dup", "Duplicate transaction_id"),
         (some "dup", "Duplicate transaction_id")]) := by
  constructor
  · rfl
  · rfl

/-- C2: the claim says accepted and rejected partition the input with empty
intersection.  On two otherwise-valid records sharing a `transaction_id`,
the first record (`dupRowC`) is in the accepted output while its id also
carries a quarantine entry — the record is both accepted and rejected, so
the partition claim fails on the code. -/
theorem partition_overlap_on_duplicates :
    apply_data_quality_checks dupFrame2 [] =
      Except.ok ([dupRowC],
        [(some "t9", "Duplicate transaction_id"),
         (some "t9", "Duplicate transaction_id")]) ∧
    dupRowC ∈ dupFrame2.rows ∧ dupRowC.transaction_id = some "t9" := by
  refine ⟨rfl, ?_, rfl⟩
  exact List.mem_cons_self _ _

/-- C3: the claim says each input record receives at most one rejection
entry.  With two records sharing id `"d3"` where the first also has a
negative amount, the code emits three entries for two input records: the
first record is quarantined once by the duplicate pass (which keeps it as a
candidate) and again by the amount pass. -/
theorem duplicate_row_gets_two_rejection_entries :
    dupFrame3.rows.length = 2 ∧
    apply_data_quality_checks dupFrame3 [] =
      Except.ok ([],
        [(some "d3", "Duplicate transaction_id"),
         (some "d3", "Duplicate transaction_id"),
         (some "d3", "Amount must be > 0")]) := by
  constructor
  · rfl
  · rfl

/-- C4 counterexample: the claim lists `status` and `updated_at` among the
null-checked fields, but `NOT_NULL_COLUMNS` (data_quality.py:31-37)
contains neither: a record that is valid except for a null `updated_at` is
accepted with no rejection entry, contradicting the claim at the field
`updated_at`.  (The emitted reason string is also `"NULL value in <col>"`,
not `"null value in <col>"`.) -/
theorem null_updated_at_row_accepted :
    nullUpdRow.updated_at = none ∧
    apply_data_quality_checks nullUpdFrame [] =
      Except.ok ([nullUpdRow], []) := by
  constructor
  · rfl
  · rfl

/-- C8: if some structurally required column is absent from the input
frame, `apply_data_quality_checks` raises (data_quality.py:96-99) before
any record is classified: the call produces an error and hence neither
accepted records nor per-record rejection entries. -/
theorem missing_column_aborts (df : Frame) (ps : List String) (c : String)
    (hc : c ∈ EXPECTED_COLUMNS) (habs : c ∉ df.cols) :
    ∃ m, apply_data_quality_checks df ps = Except.error m := by
  rcases hfind : EXPECTED_COLUMNS.find? (fun c => ¬ df.cols.contains c) with _ | c2
  · exfalso
    have := List.find?_eq_none.mp hfind c hc
    simp at this
    exact habs this
  · exact ⟨_, by unfold apply_data_quality_checks; rw [hfind]⟩

/-- C8 witness: a frame carrying only the `transaction_id` column is
rejected outright. -/
theorem missing_column_aborts_witness :
    ∃ m, apply_data_quality_checks ⟨["transaction_id"], []⟩ [] =
      Except.error m :=
  missing_column_aborts ⟨["transaction_id"], []⟩ [] "customer_id"
    (by decide) (by decide)

/-- C10: `apply_data_quality_checks` copies its argument
(data_quality.py:93) before the one in-place mutation it performs (the
status-lowercasing column assignment, data_quality.py:102), so the caller's
dataframe object — reference 0 of the heap model — is unchanged by the
call, original status casing included, for every input frame and every
product reference set. -/
theorem apply_dq_preserves_caller_df (df : Frame) (ps : List String) :
    callerDfAfter df ps = df := by
  simp only [callerDfAfter, applyDQHeap]
  split
  · rfl
  · rfl

end ETL
